import Mathlib

/-!
Verification development for the seo-blog-checker repository.

This file gives a shallow embedding, in Lean 4, of the core logic of the
repository: the content extractor (`src/content-extractor.js`), the Gemini
evaluation client (`src/gemini-client.js` and the later client embedded in
`test-report-generation.js`), and the CLI batch loop (`src/index.js`).
JavaScript values are modelled by the inductive type `JsVal` (with `undefined`
for `undefined`), JavaScript objects by insertion-ordered association lists,
and the numeric score arithmetic by exact rationals (the JavaScript engine
uses binary floating point; evaluation scores are small integers scaled by
two-decimal weights, for which the rational model is exact).

Property access on `null`/`undefined` receivers, which throws in JavaScript,
is modelled as yielding `undefined`; the extractor only dereferences through
`?.` or after a `|| fallback` guard on the paths exercised here, so the
difference is not observable in the theorems below.
-/

namespace SeoBlog

/-- Model of a JavaScript runtime value as consumed and produced by the
extractor: `undefined` models `undefined` (an absent property), `null` the JSON
null, and objects are insertion-ordered key/value lists as in V8. Numbers are
modelled as integers (the extractor only ever stores ids and counts). -/
inductive JsVal : Type where
  | undefined : JsVal
  | null : JsVal
  | bool : Bool → JsVal
  | num : Int → JsVal
  | str : String → JsVal
  | arr : List JsVal → JsVal
  | obj : List (String × JsVal) → JsVal

/-- An extracted-content object: field name to value, in insertion order. -/
abbrev JsRecord := List (String × JsVal)

/-- True exactly on `undefined` (the JavaScript `x !== undefined` tests below
are negations of this). -/
def JsVal.isUndefined : JsVal → Bool
  | .undefined => true
  | _ => false

/-- JavaScript truthiness: `undefined`, `null`, `false`, `0` and `""` are
falsy, everything else (including `[]` and `\x7b\x7d`) is truthy. -/
def truthy : JsVal → Bool
  | .undefined => false
  | .null => false
  | .bool b => b
  | .num n => n != 0
  | .str s => s != ""
  | .arr _ => true
  | .obj _ => true

/-- Key lookup in an object's entry list (first match, as in V8 objects,
whose keys are unique). -/
def jgetEntries : List (String × JsVal) → String → JsVal
  | [], _ => .undefined
  | (k', v) :: rest, k => if k' = k then v else jgetEntries rest k

/-- Property read `v[k]` / `v?.k`: looks the key up in an object, yielding
`undefined` when the key is missing or the receiver is not an object. -/
def jget : JsVal → String → JsVal
  | .obj entries, k => jgetEntries entries k
  | _, _ => .undefined

/-- Array index read `v?.[i]`: `undefined` out of bounds or on non-arrays. -/
def jidx : JsVal → Nat → JsVal
  | .arr l, i => (l.getD i .undefined)
  | _, _ => .undefined

/-- The JavaScript `a || b`: `a` when truthy, else `b`. -/
def jsOr (a b : JsVal) : JsVal := if truthy a then a else b

/-- The JavaScript strict comparison `v === s` against a string literal. -/
def jsEqStr (v : JsVal) (s : String) : Bool :=
  match v with
  | .str t => t = s
  | _ => false

/-- String payload of a value, used where the extractor hands a
`|| fallback`-guarded value to a string helper; non-string values (which
would throw inside the helper in JavaScript) map to the empty string. -/
def jsStr : JsVal → String
  | .str s => s
  | _ => ""

/-- Template-literal rendering of the values interpolated into the robots
directive (numbers and strings in practice). -/
def jsTemplate : JsVal → String
  | .str s => s
  | .num n => toString n
  | .bool b => if b then "true" else "false"
  | .null => "null"
  | .undefined => "undefined"
  | .arr _ => ""
  | .obj _ => "[object Object]"

/-- Object property read on a record (`rec[field]`, `undefined` if absent). -/
def recordGet : JsRecord → String → JsVal
  | [], _ => .undefined
  | (k', v) :: rest, k => if k' = k then v else recordGet rest k

/-- Object property write `rec[field] = v`: updates in place when the key
exists (keeping its position, as JavaScript objects do), else appends. -/
def recordSet : JsRecord → String → JsVal → JsRecord
  | [], k, v => [(k, v)]
  | (k', v') :: rest, k, v =>
      if k' = k then (k', v) :: rest else (k', v') :: recordSet rest k v

/-- A field counts as present when it is defined (`!== undefined`). -/
def recordHas (r : JsRecord) (k : String) : Bool := !(recordGet r k).isUndefined

/-- Entry list of an object value (what `Object.entries` iterates). -/
def objEntries : JsVal → JsRecord
  | .obj entries => entries
  | _ => []

theorem recordGet_set_self (r : JsRecord) (k : String) (v : JsVal) :
    recordGet (recordSet r k v) k = v := by
  induction r with
  | nil => simp [recordSet, recordGet]
  | cons hd tl ih =>
      by_cases h : hd.1 = k <;>
        simp [recordSet, recordGet, h, ih]

theorem recordGet_set_ne (r : JsRecord) (k k' : String) (v : JsVal)
    (h : k' ≠ k) : recordGet (recordSet r k' v) k = recordGet r k := by
  induction r with
  | nil => simp [recordSet, recordGet, h]
  | cons hd tl ih =>
      by_cases hh : hd.1 = k'
      · simp [recordSet, recordGet, hh, h]
      · simp only [recordSet, hh, if_false, recordGet]
        by_cases hk : hd.1 = k <;> simp [hk, ih]

/-! ### Whitespace, word counting and reading time
(`src/content-extractor.js`, `getWordCount` / `calculateReadingTime` /
`stripHtml`). -/

theorem length_dropWhile_le {α : Type} (p : α → Bool) (l : List α) :
    (l.dropWhile p).length ≤ l.length :=
  (List.dropWhile_suffix p).sublist.length_le

/-- The character class `\s` of the JavaScript regexes used by the extractor
(ASCII whitespace plus NBSP and the BOM; the rare Unicode space separators
are omitted from the model, none of the claims exercise them). -/
def jsWs (c : Char) : Bool :=
  c = ' ' || c = '\t' || c = '\n' || c = '\r' || c = '\x0b' || c = '\x0c' ||
  c.toNat = 160 || c.toNat = 0xFEFF

mutual

/-- One step of `content.split(/\s+/)` while inside a field: every maximal
whitespace run is a single separator, and boundary separators contribute
empty fields, exactly as `String.prototype.split` does; `cur` is the field
being accumulated (reversed). -/
def splitWsGo (cur : List Char) : List Char → List (List Char)
  | [] => [cur.reverse]
  | c :: cs =>
      if jsWs c then cur.reverse :: splitWsSkip cs
      else splitWsGo (c :: cur) cs

/-- Inside a separator run: skip the remaining whitespace of the run; a run
that reaches the end of the input contributes a final empty field. -/
def splitWsSkip : List Char → List (List Char)
  | [] => [[]]
  | c :: cs =>
      if jsWs c then splitWsSkip cs
      else splitWsGo [c] cs

end

/-- `content.split(/\s+/)` on a character list. -/
def splitWs (l : List Char) : List (List Char) := splitWsGo [] l

/-- `getWordCount(content)`: `0` for a falsy body, else the number of
non-empty fields of `content.split(/\s+/)`. -/
def getWordCount (content : String) : Nat :=
  if content = "" then 0
  else ((splitWs content.toList).filter (fun w => w.length != 0)).length

mutual

/-- Independent characterisation used by the word-count claim: the number of
maximal non-whitespace runs of the text (scanning between runs). -/
def countRuns : List Char → Nat
  | [] => 0
  | c :: cs => if jsWs c then countRuns cs else 1 + countRunsIn cs

/-- Inside a non-whitespace run: consume it without counting again. -/
def countRunsIn : List Char → Nat
  | [] => 0
  | c :: cs => if jsWs c then countRuns cs else countRunsIn cs

end

/-- `calculateReadingTime(content)`: `0` for a falsy body, else
`Math.ceil(wordCount / 200)` at 200 words per minute. -/
def calculateReadingTime (content : String) : Int :=
  if content = "" then 0
  else Int.ceil ((getWordCount content : ℚ) / 200)

/-- `html.replace(/<[^>]*>/g, repl)`: each `<`...`>` group (requiring a
closing `>`) is replaced by `repl`; a `<` with no later `>` is kept. -/
def replaceTags (repl : List Char) : List Char → List Char
  | [] => []
  | '<' :: cs =>
      match h : cs.dropWhile (fun c => c != '>') with
      | '>' :: rest => repl ++ replaceTags repl rest
      | _ => '<' :: replaceTags repl cs
  | c :: cs => c :: replaceTags repl cs
termination_by l => l.length
decreasing_by
  · have h1 := length_dropWhile_le (fun c => c != '>') cs
    rw [h] at h1
    simp only [List.length_cons] at h1 ⊢
    omega
  · simp
  · simp

mutual

/-- `s.replace(/\s+/g, ' ')`: collapse each maximal whitespace run to one
space. -/
def collapseWs : List Char → List Char
  | [] => []
  | c :: cs =>
      if jsWs c then ' ' :: collapseWsSkip cs
      else c :: collapseWs cs

/-- Inside a whitespace run already replaced by one space: drop the rest
of the run. -/
def collapseWsSkip : List Char → List Char
  | [] => []
  | c :: cs =>
      if jsWs c then collapseWsSkip cs
      else c :: collapseWs cs

end

/-- `s.trim()`. -/
def jsTrim (l : List Char) : List Char :=
  ((l.dropWhile jsWs).reverse.dropWhile jsWs).reverse

/-- `stripHtml(html)`: collapse every tag to a space, collapse whitespace,
trim; the empty string short-circuits on the `!html` guard. -/
def stripHtml (html : String) : String :=
  if html = "" then ""
  else ⟨jsTrim (collapseWs (replaceTags [' '] html.toList))⟩

/-! ### Heading extraction
(`extractHeadings`, regex `/<h([1-6])[^>]*>(.*?)<\/h[1-6]>/gi`). -/

/-- Case-insensitive `h` of the heading regex (`i` flag). -/
def isHchar (c : Char) : Bool := c = 'h' || c = 'H'

/-- The `[1-6]` class of the heading regex. -/
def isH16 (c : Char) : Bool := '1' ≤ c && c ≤ '6'

/-- Line terminators, which the regex `.` never matches. -/
def isLineTerm (c : Char) : Bool :=
  c = '\n' || c = '\r' || c.toNat = 0x2028 || c.toNat = 0x2029

/-- Whether a closing `</h[1-6]>` tag (case-insensitive) starts right here:
`c` is the current character and `cs` the rest of the input. -/
def closeTagAt (c : Char) (cs : List Char) : Bool :=
  c = '<' &&
    match cs with
    | '/' :: h :: d :: '>' :: _ => isHchar h && isH16 d
    | _ => false

/-- Lazy search for the closing `</h[1-6]>` of the heading regex: returns
the `(.*?)` capture and the remainder after the closing tag, or `none` when
a line terminator (which `.` cannot match) or the end of input comes first.
On a hit the four characters `/h𝑑>` after the `<` are consumed (`drop 4`).
`isLineTerm '<'` is false, so checking it after `closeTagAt` is faithful to
the regex, which keeps scanning when a `<` does not open the closing tag. -/
def findHClose : List Char → Option (List Char × List Char)
  | [] => none
  | c :: cs =>
      if closeTagAt c cs then some ([], cs.drop 4)
      else if isLineTerm c then none
      else (findHClose cs).map (fun p => (c :: p.1, p.2))

theorem findHClose_length (l : List Char) :
    ∀ inner rest, findHClose l = some (inner, rest) → rest.length ≤ l.length := by
  induction l with
  | nil => intro inner rest h; simp [findHClose] at h
  | cons c cs ih =>
      intro inner rest h
      simp only [findHClose] at h
      by_cases h1 : closeTagAt c cs = true
      · rw [if_pos h1] at h
        obtain ⟨-, h3⟩ := Prod.mk.injEq .. ▸ Option.some.inj h
        subst h3
        have := List.length_drop 4 cs
        simp only [List.length_cons]
        omega
      · rw [if_neg h1] at h
        by_cases h2 : isLineTerm c = true
        · rw [if_pos h2] at h; exact absurd h (by simp)
        · rw [if_neg h2] at h
          cases ho : findHClose cs with
          | none => rw [ho] at h; simp at h
          | some p =>
              rw [ho] at h
              obtain ⟨-, h3⟩ := Prod.mk.injEq .. ▸ Option.some.inj h
              subst h3
              have := ih p.1 p.2 ho
              simp only [List.length_cons]
              omega

/-- `parseInt(match[1])` on the captured heading digit. -/
def headingDigit (d : Char) : Int := Int.ofNat (d.toNat - '0'.toNat)

/-- `match[2].replace(/<[^>]*>/g, '').trim()`: the heading text cleanup. -/
def headingText (inner : List Char) : String := ⟨jsTrim (replaceTags [] inner)⟩

/-- The `exec` loop of `extractHeadings`: scan left to right; at an opening
`<h[1-6]` with attributes and a `>`, find the lazy closing tag on the same
line; on success record the heading and resume after the closing tag, on
failure resume one character further on (regex `lastIndex` semantics). -/
def extractHeadingsGo : List Char → List (Int × String)
  | [] => []
  | '<' :: cs =>
      match hcs : cs with
      | h :: d :: rest =>
          if isHchar h && isH16 d then
            match hdrop : rest.dropWhile (fun x => x != '>') with
            | '>' :: after =>
                match hclose : findHClose after with
                | some (inner, rest2) =>
                    (headingDigit d, headingText inner) :: extractHeadingsGo rest2
                | none => extractHeadingsGo (h :: d :: rest)
            | _ => extractHeadingsGo (h :: d :: rest)
          else extractHeadingsGo (h :: d :: rest)
      | _ => extractHeadingsGo cs
  | _ :: cs => extractHeadingsGo cs
termination_by l => l.length
decreasing_by
  all_goals first
  | (have h1 := findHClose_length after inner rest2 hclose
     have h2 : ('>' :: after).length ≤ rest.length :=
       hdrop ▸ length_dropWhile_le (fun x => x != '>') rest
     simp only [List.length_cons] at h1 h2 ⊢
     omega)
  | simp [hcs]
  | simp

/-- `extractHeadings(html)`: the heading `{level, text}` objects in document
order (empty on the `!html` guard). -/
def extractHeadings (html : String) : List JsVal :=
  if html = "" then []
  else (extractHeadingsGo html.toList).map
    (fun p => .obj [("level", .num p.1), ("text", .str p.2)])

/-! ### Robots directive synthesis (`buildRobotsDirective`). -/

/-- `buildRobotsDirective(meta, yoastHeadJson)`: up to seven sub-directives,
each read from the structured Yoast block first with the flat meta key as
fallback, joined with a comma. -/
def buildRobotsDirective (meta yoastHeadJson : JsVal) : String :=
  if !truthy meta && !truthy yoastHeadJson then ""
  else
    let robots := jsOr (jget yoastHeadJson "robots") (.obj [])
    let part1 : List String :=
      [if jsEqStr (jget robots "index") "noindex" ||
          jsEqStr (jget meta "_yoast_wpseo_meta_robots_noindex") "1"
       then "noindex" else "index",
       if jsEqStr (jget robots "follow") "nofollow" ||
          jsEqStr (jget meta "_yoast_wpseo_meta_robots_nofollow") "1"
       then "nofollow" else "follow"]
    let part2 : List String :=
      (if jsEqStr (jget robots "archive") "noarchive" ||
          jsEqStr (jget meta "_yoast_wpseo_meta_robots_noarchive") "1"
       then ["noarchive"] else []) ++
      (if jsEqStr (jget robots "snippet") "nosnippet" ||
          jsEqStr (jget meta "_yoast_wpseo_meta_robots_nosnippet") "1"
       then ["nosnippet"] else []) ++
      (if jsEqStr (jget robots "imageindex") "noimageindex"
       then ["noimageindex"] else []) ++
      (if truthy (jget robots "max_snippet")
       then ["max-snippet:" ++ jsTemplate (jget robots "max_snippet")] else []) ++
      (if truthy (jget robots "max_image_preview")
       then ["max-image-preview:" ++ jsTemplate (jget robots "max_image_preview")]
       else []) ++
      (if truthy (jget robots "max_video_preview")
       then ["max-video-preview:" ++ jsTemplate (jget robots "max_video_preview")]
       else [])
    String.intercalate ", " (part1 ++ part2)

/-! ### The three shape projections and the config filter
(`src/content-extractor.js`, class `ContentExtractor`). -/

/-- `s.trim()` on a string. -/
def jsTrimStr (s : String) : String := ⟨jsTrim s.toList⟩

/-- The WordPress (CMS) projection: the object literal built by
`extractWordPressContent` before the config filter is applied, field by
field in source order; `yoast` and `meta` are the `|| \x7b\x7d`-guarded
local bindings. -/
def wordPressProjection (d : JsVal) : JsRecord :=
  let yoast := jsOr (jget d "yoast_head_json") (.obj [])
  let meta := jsOr (jget d "meta") (.obj [])
  [("post_id", jget d "id"),
   ("slug", jget d "slug"),
   ("url", jget d "link"),
   ("title", jsOr (jsOr (jget (jget d "title") "rendered") (jget d "title")) (.str "")),
   ("content", .str (stripHtml (jsStr
      (jsOr (jsOr (jget (jget d "content") "rendered") (jget d "content")) (.str ""))))),
   ("content_html",
      jsOr (jsOr (jget (jget d "content") "rendered") (jget d "content")) (.str "")),
   ("excerpt", .str (stripHtml (jsStr
      (jsOr (jsOr (jget (jget d "excerpt") "rendered") (jget d "excerpt")) (.str ""))))),
   ("meta_description",
      jsOr (jsOr (jget yoast "description") (jget meta "_yoast_wpseo_metadesc")) (.str "")),
   ("keywords", jsOr (jget yoast "keywords")
      (if truthy (jget meta "_yoast_wpseo_focuskw")
       then .arr [jget meta "_yoast_wpseo_focuskw"] else .arr [])),
   ("headers", .arr (extractHeadings (jsStr
      (jsOr (jget (jget d "content") "rendered") (.str ""))))),
   ("word_count", .num (getWordCount (jsStr
      (jsOr (jget (jget d "content") "rendered") (.str ""))))),
   ("last_modified", jsOr (jget d "modified") (.str "")),
   ("yoast_head_json", jsOr (jget d "yoast_head_json") .null),
   ("yoast_seo_score", jsOr (jget (jget d "meta") "_yoast_wpseo_linkdex") (.str "")),
   ("yoast_readability_score",
      jsOr (jget (jget d "meta") "_yoast_wpseo_content_score") (.str "")),
   ("yoast_focus_keyword",
      jsOr (jsOr (jget yoast "focus_keywords") (jget meta "_yoast_wpseo_focuskw")) (.str "")),
   ("yoast_seo_title",
      jsOr (jsOr (jget yoast "title") (jget meta "_yoast_wpseo_title")) (.str "")),
   ("yoast_canonical",
      jsOr (jsOr (jget yoast "canonical") (jget meta "_yoast_wpseo_canonical")) (.str "")),
   ("yoast_noindex", .bool
      (jsEqStr (jget (jget yoast "robots") "index") "noindex" ||
       jsEqStr (jget meta "_yoast_wpseo_meta_robots_noindex") "1")),
   ("yoast_nofollow", .bool
      (jsEqStr (jget (jget yoast "robots") "follow") "nofollow" ||
       jsEqStr (jget meta "_yoast_wpseo_meta_robots_nofollow") "1")),
   ("primary_category",
      jsOr (jsOr (jget yoast "primary_category")
        (jget meta "_yoast_wpseo_primary_category")) (.str "")),
   ("post_status", jsOr (jget d "status") (.str "")),
   ("post_type", jsOr (jget d "type") (.str "")),
   ("date_published", jsOr (jget d "date") (.str "")),
   ("date_modified", jsOr (jget d "modified") (.str "")),
   ("author_id", jsOr (jget d "author") (.str "")),
   ("featured_media_id", jsOr (jget d "featured_media") (.str "")),
   ("categories", jsOr (jget d "categories") (.arr [])),
   ("tags", jsOr (jget d "tags") (.arr [])),
   ("estimated_reading_time", .num (calculateReadingTime (jsStr
      (jsOr (jget (jget d "content") "rendered") (.str ""))))),
   ("canonical_url",
      jsOr (jsOr (jget (jget d "meta") "_yoast_wpseo_canonical") (jget d "link")) (.str "")),
   ("robots", .str (buildRobotsDirective (jget d "meta") (jget d "yoast_head_json"))),
   ("og_title",
      jsOr (jsOr (jget yoast "og_title") (jget meta "_yoast_wpseo_opengraph_title")) (.str "")),
   ("og_description",
      jsOr (jsOr (jget yoast "og_description")
        (jget meta "_yoast_wpseo_opengraph_description")) (.str "")),
   ("og_image",
      jsOr (jsOr (jget (jidx (jget yoast "og_image") 0) "url")
        (jget meta "_yoast_wpseo_opengraph_image")) (.str "")),
   ("twitter_title",
      jsOr (jsOr (jget yoast "twitter_title") (jget meta "_yoast_wpseo_twitter_title")) (.str "")),
   ("twitter_description",
      jsOr (jsOr (jget yoast "twitter_description")
        (jget meta "_yoast_wpseo_twitter_description")) (.str "")),
   ("twitter_image",
      jsOr (jsOr (jget yoast "twitter_image") (jget meta "_yoast_wpseo_twitter_image")) (.str ""))]

/-- The Scrape projection: the object literal built by
`extractUniversalContent` before the config filter (source order). -/
def universalProjection (d : JsVal) : JsRecord :=
  [("post_id", jget d "id"),
   ("slug", jget d "slug"),
   ("url", jget d "link"),
   ("title", jsOr (jget d "title") (.str "")),
   ("content", jsOr (jget (jget d "content") "text") (.str "")),
   ("content_html", jsOr (jget (jget d "content") "rendered") (.str "")),
   ("excerpt", jsOr (jget (jget d "excerpt") "text") (.str "")),
   ("meta_description", jsOr (jget (jget d "meta") "description") (.str "")),
   ("keywords",
      if truthy (jget (jget d "meta") "keywords")
      then .arr (((jsStr (jget (jget d "meta") "keywords")).split (fun c => c = ',')).map
        (fun k => .str (jsTrimStr k)))
      else .arr []),
   ("headers", jsOr (jget d "headers") (.arr [])),
   ("images", jsOr (jget d "images") (.arr [])),
   ("schema", jsOr (jget d "schema") (.arr [])),
   ("links", jsOr (jget d "links") (.arr [])),
   ("word_count", .num (getWordCount (jsStr (jsOr (jget (jget d "content") "text") (.str ""))))),
   ("canonical_url", jsOr (jget (jget d "meta") "canonical_url") (.str "")),
   ("robots", jsOr (jget (jget d "meta") "robots") (.str "")),
   ("viewport", jsOr (jget (jget d "meta") "viewport") (.str "")),
   ("language", jsOr (jget (jget d "meta") "language") (.str "")),
   ("og_title", jsOr (jget (jget d "meta") "og_title") (.str "")),
   ("og_description", jsOr (jget (jget d "meta") "og_description") (.str "")),
   ("og_image", jsOr (jget (jget d "meta") "og_image") (.str "")),
   ("og_type", jsOr (jget (jget d "meta") "og_type") (.str "")),
   ("og_url", jsOr (jget (jget d "meta") "og_url") (.str "")),
   ("og_site_name", jsOr (jget (jget d "meta") "og_site_name") (.str "")),
   ("article_author", jsOr (jget (jget d "meta") "article_author") (.str "")),
   ("article_published_time", jsOr (jget (jget d "meta") "article_published_time") (.str "")),
   ("article_modified_time", jsOr (jget (jget d "meta") "article_modified_time") (.str "")),
   ("article_section", jsOr (jget (jget d "meta") "article_section") (.str "")),
   ("article_tag", jsOr (jget (jget d "meta") "article_tag") (.str "")),
   ("twitter_title", jsOr (jget (jget d "meta") "twitter_title") (.str "")),
   ("twitter_description", jsOr (jget (jget d "meta") "twitter_description") (.str "")),
   ("twitter_card", jsOr (jget (jget d "meta") "twitter_card") (.str "")),
   ("twitter_site", jsOr (jget (jget d "meta") "twitter_site") (.str "")),
   ("twitter_creator", jsOr (jget (jget d "meta") "twitter_creator") (.str "")),
   ("twitter_image", jsOr (jget (jget d "meta") "twitter_image") (.str "")),
   ("schema_analysis", jsOr (jget (jget d "schema") "analysis") .null),
   ("raw_schemas",
      jsOr (jsOr (jget (jget d "schema") "raw_schemas") (jget d "schema")) (.arr []))]

/-- The Generic (fallback) projection: the object literal built by
`extractGenericContent` before the config filter (source order); missing
`id`/`slug` fall back to the placeholder `"unknown"`, a missing
`link`/`url` to the empty string. -/
def genericProjection (d : JsVal) : JsRecord :=
  [("post_id", jsOr (jget d "id") (.str "unknown")),
   ("slug", jsOr (jget d "slug") (.str "unknown")),
   ("url", jsOr (jsOr (jget d "link") (jget d "url")) (.str "")),
   ("title", jsOr (jget d "title") (.str "")),
   ("content",
      match jget d "content" with
      | .str s => .str s
      | c => jsOr (jget c "text") (.str "")),
   ("content_html", jsOr (jget (jget d "content") "rendered") (.str "")),
   ("excerpt", jsOr (jget d "excerpt") (.str "")),
   ("meta_description", jsOr (jget d "meta_description") (.str "")),
   ("keywords",
      match jget d "keywords" with
      | .arr l => .arr l
      | _ => .arr []),
   ("headers", jsOr (jget d "headers") (.arr [])),
   ("word_count", .num (getWordCount (jsStr (jsOr (jget d "content") (.str "")))))]

/-- `flattenConfig(config, prefix)` of `applyConfigFilter`: flattens nested
boolean groups; the `fullKey` is computed exactly as in the source but (as
in the source) entries are stored under the bare key, and `Object.assign`
merges nested results into the accumulating object. -/
def flattenConfigEntries : List (String × JsVal) → String → JsRecord → JsRecord
  | [], _, acc => acc
  | (k, v) :: rest, pre, acc =>
      let fullKey := if pre = "" then k else pre ++ "." ++ k
      match v with
      | .obj sub =>
          flattenConfigEntries rest pre
            ((flattenConfigEntries sub fullKey []).foldl
              (fun a kv => recordSet a kv.1 kv.2) acc)
      | _ => flattenConfigEntries rest pre (recordSet acc k v)

/-- `flattenConfig(this.config)`. -/
def flattenConfig (config : JsVal) : JsRecord :=
  flattenConfigEntries (objEntries config) "" []

/-- The five force-included fields of `applyConfigFilter`. -/
def essentialFields : List String := ["post_id", "slug", "url", "title", "content"]

/-- One step of the filter loops: copy `field` from the extracted content
into the output when the config flag is truthy and the field is defined. -/
def copyIfEnabled (extracted : JsRecord) (acc : JsRecord) (kv : String × JsVal) : JsRecord :=
  if truthy kv.2 && !(recordGet extracted kv.1).isUndefined
  then recordSet acc kv.1 (recordGet extracted kv.1) else acc

/-- One step of the final loop of `applyConfigFilter`: force-include an
essential field when it is defined in the extracted content. -/
def forceEssential (extracted : JsRecord) (acc : JsRecord) (f : String) : JsRecord :=
  if !(recordGet extracted f).isUndefined
  then recordSet acc f (recordGet extracted f) else acc

/-- `applyConfigFilter(extractedContent)`: identity when `this.config` is
falsy; otherwise builds a fresh object from the flattened allow-list, then
the nested section groups, then force-includes the essential fields that
are defined in the extracted content. -/
def applyConfigFilter (config : JsVal) (extractedContent : JsRecord) : JsRecord :=
  if !truthy config then extractedContent
  else
    let flatConfig := flattenConfig config
    let f1 := flatConfig.foldl (copyIfEnabled extractedContent) []
    let f2 := (objEntries config).foldl
      (fun acc skv =>
        match skv.2 with
        | .obj sub => sub.foldl (copyIfEnabled extractedContent) acc
        | _ => acc) f1
    essentialFields.foldl (forceEssential extractedContent) f2

/-- `isWordPressData` (first detection predicate of `extract`): an
SEO-plugin metadata block, or a flat meta map, or the id+slug+link triad. -/
def isWordPressData (data : JsVal) : Bool :=
  !(jget data "yoast_head_json").isUndefined || !(jget data "meta").isUndefined ||
  (truthy (jget data "id") && truthy (jget data "slug") && truthy (jget data "link"))

/-- `isUniversalData` (second detection predicate): `data.content &&
data.content.text`. -/
def isUniversalData (data : JsVal) : Bool :=
  truthy (jget data "content") && truthy (jget (jget data "content") "text")

/-- The three raw-record shapes. -/
inductive Shape : Type where
  | cms : Shape
  | scrape : Shape
  | generic : Shape
deriving DecidableEq

/-- The ordered, first-match-wins shape classification of `extract`. -/
def detectShape (data : JsVal) : Shape :=
  if isWordPressData data then .cms
  else if isUniversalData data then .scrape
  else .generic

/-- `extractWordPressContent` (projection followed by the config filter). -/
def extractWordPressContent (config data : JsVal) : JsRecord :=
  applyConfigFilter config (wordPressProjection data)

/-- `extractUniversalContent` (projection followed by the config filter). -/
def extractUniversalContent (config data : JsVal) : JsRecord :=
  applyConfigFilter config (universalProjection data)

/-- `extractGenericContent` (projection followed by the config filter). -/
def extractGenericContent (config data : JsVal) : JsRecord :=
  applyConfigFilter config (genericProjection data)

/-- The unfiltered canonical projection the detected shape produces. -/
def rawProjection (data : JsVal) : JsRecord :=
  match detectShape data with
  | .cms => wordPressProjection data
  | .scrape => universalProjection data
  | .generic => genericProjection data

/-- `extract(data)` for an extractor constructed with `config`. -/
def extract (config data : JsVal) : JsRecord :=
  if isWordPressData data then extractWordPressContent config data
  else if isUniversalData data then extractUniversalContent config data
  else extractGenericContent config data

/-! ### Parsed JSON values (`JSON.parse` output inside `gemini-client.js`).
Numbers are exact rationals; see the header note on floating point. -/

/-- A parsed JSON value. -/
inductive Json : Type where
  | null : Json
  | bool : Bool → Json
  | num : ℚ → Json
  | str : String → Json
  | arr : List Json → Json
  | obj : List (String × Json) → Json

/-- First-match member lookup in an object body. -/
def jsonGet : List (String × Json) → String → Option Json
  | [], _ => none
  | (k', v) :: rest, k => if k' = k then some v else jsonGet rest k

/-- Member write: update in place when the key exists, else append (the
JavaScript object-assignment semantics `JSON.parse` uses for duplicate
keys and `evaluation.overall_score = ...` uses for the override). -/
def jsonSet : List (String × Json) → String → Json → List (String × Json)
  | [], k, v => [(k, v)]
  | (k', v') :: rest, k, v =>
      if k' = k then (k', v) :: rest else (k', v') :: jsonSet rest k v

/-- Property read `e[k]` on a parsed value (`none` models `undefined`). -/
def objGet : Json → String → Option Json
  | .obj ms, k => jsonGet ms k
  | _, _ => none

/-- Property write `e[k] = v` on a parsed value. -/
def objSet : Json → String → Json → Json
  | .obj ms, k, v => .obj (jsonSet ms k v)
  | e, _, _ => e

/-- Truthiness of a property-read result (`undefined` when absent). -/
def jsonTruthy : Option Json → Bool
  | none => false
  | some .null => false
  | some (.bool b) => b
  | some (.num q) => q != 0
  | some (.str s) => s != ""
  | some (.arr _) => true
  | some (.obj _) => true

/-! ### The response-repair pipeline
(`parseEvaluationResponse`, `src/gemini-client.js` lines 338-430): extract
the outermost braces, strip comments and control characters, regex comma
repairs, whitespace normalization, then the quote/bracket-state scan. -/

/-- Whether the closing `*/` of a block comment starts right here. -/
def commentCloseAt (c : Char) (cs : List Char) : Bool :=
  c = '*' &&
    match cs with
    | '/' :: _ => true
    | _ => false

/-- Position after the first closing `*/`, if any (lazy `[\s\S]*?`). -/
def findCommentClose : List Char → Option (List Char)
  | [] => none
  | c :: cs =>
      if commentCloseAt c cs then some (cs.drop 1)
      else findCommentClose cs

theorem findCommentClose_length (l : List Char) :
    ∀ rest, findCommentClose l = some rest → rest.length ≤ l.length := by
  induction l with
  | nil => intro rest h; simp [findCommentClose] at h
  | cons c cs ih =>
      intro rest h
      simp only [findCommentClose] at h
      by_cases h1 : commentCloseAt c cs = true
      · rw [if_pos h1] at h
        obtain rfl := Option.some.inj h
        have := cs.length_drop 1
        simp only [List.length_cons]
        omega
      · rw [if_neg h1] at h
        have := ih rest h
        simp only [List.length_cons]
        omega

mutual

/-- `.replace(/\/\*[\s\S]*?\*\/|\/\/.*/g, '')`: block comments (requiring a
closing `*/`, checked up front so an unterminated `/*` is kept verbatim)
and line comments (up to the line terminator, which `.` does not match) are
deleted in a left-to-right scan. -/
def stripComments : List Char → List Char
  | [] => []
  | c :: cs =>
      if c = '/' then
        match cs with
        | '*' :: cs2 =>
            if (findCommentClose cs2).isSome then stripCommentsBlock cs2
            else '/' :: '*' :: stripComments cs2
        | '/' :: cs2 => stripLineComment cs2
        | [] => ['/']
        | c2 :: cs2 => '/' :: c2 :: stripComments cs2
      else c :: stripComments cs

/-- Inside a block comment known to close: drop up to and including the
first `*/` (the lazy `[\s\S]*?`), then resume scanning. -/
def stripCommentsBlock : List Char → List Char
  | [] => []
  | '*' :: '/' :: cs2 => stripComments cs2
  | _ :: cs => stripCommentsBlock cs

/-- Inside a line comment: drop up to the line terminator, which stays (a
terminator cannot start a match, so scanning resumes after it). -/
def stripLineComment : List Char → List Char
  | [] => []
  | c :: cs =>
      if isLineTerm c then c :: stripComments cs
      else stripLineComment cs

end

/-- The class `[\x00-\x1F\x7F-\x9F]` of non-printable characters. -/
def isCtlChar (c : Char) : Bool :=
  c.toNat ≤ 0x1F || (0x7F ≤ c.toNat && c.toNat ≤ 0x9F)

/-- `.replace(/[\x00-\x1F\x7F-\x9F]/g, '')`. -/
def stripCtl (l : List Char) : List Char := l.filter (fun c => !isCtlChar c)

mutual

/-- `.replace(/"\s*\n\s*"/g, '", "')`: a quote, then a whitespace run
containing a newline, then a quote, becomes `", "`. -/
def fixNlComma : List Char → List Char
  | [] => []
  | c :: cs =>
      if c = '"' then fixNlCommaQ false [] cs
      else c :: fixNlComma cs

/-- After an opening quote: `ws` is the buffered whitespace (reversed) and
`sawNl` whether it contained a newline. On a quote after a newline the
match rewrites to `", "`; on a quote without one the failed attempt resumes
at that quote (the buffered whitespace cannot start a match); on any other
character or at the end the text is emitted unchanged. -/
def fixNlCommaQ (sawNl : Bool) (ws : List Char) : List Char → List Char
  | [] => '"' :: ws.reverse
  | c :: cs =>
      if jsWs c then fixNlCommaQ (sawNl || c = '\n') (c :: ws) cs
      else if c = '"' then
        if sawNl then '"' :: ',' :: ' ' :: '"' :: fixNlComma cs
        else '"' :: ws.reverse ++ fixNlCommaQ false [] cs
      else '"' :: ws.reverse ++ c :: fixNlComma cs

end

mutual

/-- `.replace(/"\s*\]/g, '"]')`: a quote, optional whitespace, then `]`
loses the whitespace. -/
def fixArrClose : List Char → List Char
  | [] => []
  | c :: cs =>
      if c = '"' then fixArrCloseQ [] cs
      else c :: fixArrClose cs

/-- After the opening quote of a `"\s*\]` candidate: buffer whitespace; a
`]` completes the match, another quote restarts the attempt there, anything
else is emitted unchanged. -/
def fixArrCloseQ (ws : List Char) : List Char → List Char
  | [] => '"' :: ws.reverse
  | c :: cs =>
      if jsWs c then fixArrCloseQ (c :: ws) cs
      else if c = ']' then '"' :: ']' :: fixArrClose cs
      else if c = '"' then '"' :: ws.reverse ++ fixArrCloseQ [] cs
      else '"' :: ws.reverse ++ c :: fixArrClose cs

end

mutual

/-- `.replace(/\[\s*"/g, '["')`: a bracket, optional whitespace, then a
quote loses the whitespace. -/
def fixArrOpen : List Char → List Char
  | [] => []
  | c :: cs =>
      if c = '[' then fixArrOpenQ [] cs
      else c :: fixArrOpen cs

/-- After the `[` of a `\[\s*"` candidate: buffer whitespace; a quote
completes the match, another `[` restarts the attempt there, anything else
is emitted unchanged. -/
def fixArrOpenQ (ws : List Char) : List Char → List Char
  | [] => '[' :: ws.reverse
  | c :: cs =>
      if jsWs c then fixArrOpenQ (c :: ws) cs
      else if c = '"' then '[' :: '"' :: fixArrOpen cs
      else if c = '[' then '[' :: ws.reverse ++ fixArrOpenQ [] cs
      else '[' :: ws.reverse ++ c :: fixArrOpen cs

end

mutual

/-- `.replace(/(")\s*(\s*")/g, '$1, $2')`: a quote, optional whitespace and
another quote become `", "` (both `\s*` groups are greedy, so group two
captures only the quote and the replacement inserts exactly `, `). -/
def fixStrComma : List Char → List Char
  | [] => []
  | c :: cs =>
      if c = '"' then fixStrCommaQ [] cs
      else c :: fixStrComma cs

/-- After the first quote of a `(")\s*(\s*")` candidate: buffer
whitespace; a second quote completes the match (scanning resumes after it),
anything else is emitted unchanged (whitespace cannot start a match, and
the breaking character is not a quote). -/
def fixStrCommaQ (ws : List Char) : List Char → List Char
  | [] => '"' :: ws.reverse
  | c :: cs =>
      if jsWs c then fixStrCommaQ (c :: ws) cs
      else if c = '"' then '"' :: ',' :: ' ' :: '"' :: fixStrComma cs
      else '"' :: ws.reverse ++ c :: fixStrComma cs

end

mutual

/-- `.replace(/}\s*{/g, '}, {')`: a closing then an opening brace with only
whitespace between gain a comma. -/
def fixObjComma : List Char → List Char
  | [] => []
  | c :: cs =>
      if c = '\x7d' then fixObjCommaQ [] cs
      else c :: fixObjComma cs

/-- After the closing brace of a `}\s*{` candidate: buffer whitespace; an
opening brace completes the match, another closing brace restarts the
attempt there, anything else is emitted unchanged. -/
def fixObjCommaQ (ws : List Char) : List Char → List Char
  | [] => '\x7d' :: ws.reverse
  | c :: cs =>
      if jsWs c then fixObjCommaQ (c :: ws) cs
      else if c = '\x7b' then '\x7d' :: ',' :: ' ' :: '\x7b' :: fixObjComma cs
      else if c = '\x7d' then '\x7d' :: ws.reverse ++ fixObjCommaQ [] cs
      else '\x7d' :: ws.reverse ++ c :: fixObjComma cs

end

/-- One pass of the character scan of lines 376-406: `inString` toggles at
unescaped quotes first, bracket depth and `inArray` update outside strings,
and a comma is appended before a quote that directly follows another quote
inside an array. The initial `lastChar` is the NUL sentinel for the empty
`lastChar = ''` of the source. -/
def scanFixGo (inString : Bool) (depth : Int) (inArray : Bool) (lastChar : Char)
    (acc : List Char) : List Char → List Char
  | [] => acc.reverse
  | c :: cs =>
      let inString1 := if c = '"' && lastChar != '\\' then !inString else inString
      let depth1 :=
        if !inString1 && c = '[' then depth + 1
        else if !inString1 && c = ']' then depth - 1
        else depth
      let inArray1 :=
        if !inString1 && c = '[' then true
        else if !inString1 && c = ']' then decide (depth - 1 > 0)
        else inArray
      let addComma :=
        !inString1 && c != '[' && c != ']' && inArray && c = '"' && lastChar = '"'
      scanFixGo inString1 depth1 inArray1 c
        ((if addComma then [c, ','] else [c]) ++ acc) cs

/-- The full character scan over the regex-repaired text. -/
def scanFix (l : List Char) : List Char :=
  scanFixGo false 0 false (Char.ofNat 0) [] l

/-- The repair pipeline applied to the brace-extracted candidate, in source
order (lines 359-408). -/
def repairJsonText (l : List Char) : List Char :=
  scanFix (collapseWs (fixObjComma (fixStrComma (fixArrOpen (fixArrClose
    (fixNlComma (stripCtl (stripComments l))))))))

/-- `text.match(/\{[\s\S]*\}/)`: the substring from the first opening brace
to the last closing brace after it, if both exist. -/
def jsonMatchExtract (l : List Char) : Option (List Char) :=
  match l.dropWhile (fun c => c != '\x7b') with
  | [] => none
  | c :: cs =>
      match ((c :: cs).reverse.dropWhile (fun x => x != '\x7d')) with
      | [] => none
      | tail => some tail.reverse

/-! ### A model of `JSON.parse` (fuel-based recursive descent). -/

/-- The whitespace `JSON.parse` skips between tokens. -/
def jsonWsChar (c : Char) : Bool := c = ' ' || c = '\t' || c = '\n' || c = '\r'

/-- Skip inter-token whitespace. -/
def skipJsonWs (l : List Char) : List Char := l.dropWhile jsonWsChar

/-- ASCII digit test. -/
def isDigitChar (c : Char) : Bool := '0' ≤ c && c ≤ '9'

/-- Value of a hexadecimal digit (code points 0-9, a-f, A-F). -/
def hexDigitVal (c : Char) : Option Nat :=
  let n := c.toNat
  if 48 ≤ n && n ≤ 57 then some (n - 48)
  else if 97 ≤ n && n ≤ 102 then some (n - 87)
  else if 65 ≤ n && n ≤ 70 then some (n - 55)
  else none

/-- Content of a JSON string after the opening quote, handling the JSON
escape sequences. -/
def parseJStringGo (acc : List Char) : List Char → Option (String × List Char)
  | [] => none
  | '"' :: rest => some (⟨acc.reverse⟩, rest)
  | '\\' :: 'u' :: a :: b :: c :: d :: rest =>
      match hexDigitVal a, hexDigitVal b, hexDigitVal c, hexDigitVal d with
      | some va, some vb, some vc, some vd =>
          parseJStringGo (Char.ofNat (((va * 16 + vb) * 16 + vc) * 16 + vd) :: acc) rest
      | _, _, _, _ => none
  | '\\' :: e :: rest =>
      match e with
      | '"' => parseJStringGo ('"' :: acc) rest
      | '\\' => parseJStringGo ('\\' :: acc) rest
      | '/' => parseJStringGo ('/' :: acc) rest
      | 'b' => parseJStringGo (Char.ofNat 8 :: acc) rest
      | 'f' => parseJStringGo (Char.ofNat 12 :: acc) rest
      | 'n' => parseJStringGo ('\n' :: acc) rest
      | 'r' => parseJStringGo ('\r' :: acc) rest
      | 't' => parseJStringGo ('\t' :: acc) rest
      | _ => none
  | c :: rest => parseJStringGo (c :: acc) rest

/-- Decimal digits to a natural number. -/
def digitsToNat (ds : List Char) : Nat :=
  ds.foldl (fun a c => a * 10 + (c.toNat - '0'.toNat)) 0

/-- A JSON number (sign, integer part, optional fraction and exponent) as
an exact rational. -/
def parseJNumber (l : List Char) : Option (ℚ × List Char) :=
  let (neg, l1) := match l with | '-' :: r => (true, r) | _ => (false, l)
  let ds := l1.takeWhile isDigitChar
  let l2 := l1.dropWhile isDigitChar
  if ds.isEmpty then none
  else
    let fracStep : Option (List Char × List Char) :=
      match l2 with
      | '.' :: r =>
          let fds := r.takeWhile isDigitChar
          if fds.isEmpty then none else some (fds, r.dropWhile isDigitChar)
      | _ => some ([], l2)
    match fracStep with
    | none => none
    | some (fds, l3) =>
        let expStep : Option (Int × List Char) :=
          match l3 with
          | 'e' :: r | 'E' :: r =>
              let (sgn, r1) : Int × List Char :=
                match r with
                | '+' :: r2 => (1, r2)
                | '-' :: r2 => (-1, r2)
                | _ => (1, r)
              let eds := r1.takeWhile isDigitChar
              if eds.isEmpty then none
              else some (sgn * Int.ofNat (digitsToNat eds), r1.dropWhile isDigitChar)
          | _ => some (0, l3)
        match expStep with
        | none => none
        | some (ex, l4) =>
            let mant : ℚ := (digitsToNat (ds ++ fds) : ℚ)
            let signed : ℚ := (if neg then -1 else 1) * mant / ((10 : ℚ) ^ fds.length)
            some (signed * (10 : ℚ) ^ ex, l4)

mutual

/-- Recursive-descent JSON value (fuel-bounded; the fuel passed by
`parseJson` always suffices for its input). -/
def parseJValueGo : Nat → List Char → Option (Json × List Char)
  | 0, _ => none
  | fuel + 1, l =>
      match skipJsonWs l with
      | 'n' :: 'u' :: 'l' :: 'l' :: r => some (.null, r)
      | 't' :: 'r' :: 'u' :: 'e' :: r => some (.bool true, r)
      | 'f' :: 'a' :: 'l' :: 's' :: 'e' :: r => some (.bool false, r)
      | '"' :: r => (parseJStringGo [] r).map (fun p => (.str p.1, p.2))
      | '[' :: r =>
          match skipJsonWs r with
          | ']' :: r2 => some (.arr [], r2)
          | r2 => (parseJElemsGo fuel r2).map (fun p => (.arr p.1, p.2))
      | '\x7b' :: r =>
          match skipJsonWs r with
          | '\x7d' :: r2 => some (.obj [], r2)
          | r2 =>
              (parseJMembersGo fuel r2).map (fun p =>
                (.obj (p.1.foldl (fun acc kv => jsonSet acc kv.1 kv.2) []), p.2))
      | r => (parseJNumber r).map (fun p => (.num p.1, p.2))

/-- One-or-more comma-separated array elements up to the closing bracket. -/
def parseJElemsGo : Nat → List Char → Option (List Json × List Char)
  | 0, _ => none
  | fuel + 1, l =>
      match parseJValueGo fuel l with
      | none => none
      | some (v, r) =>
          match skipJsonWs r with
          | ',' :: r2 => (parseJElemsGo fuel r2).map (fun p => (v :: p.1, p.2))
          | ']' :: r2 => some ([v], r2)
          | _ => none

/-- One-or-more `"key": value` members up to the closing brace. -/
def parseJMembersGo : Nat → List Char → Option (List (String × Json) × List Char)
  | 0, _ => none
  | fuel + 1, l =>
      match skipJsonWs l with
      | '"' :: r =>
          match parseJStringGo [] r with
          | none => none
          | some (key, r1) =>
              match skipJsonWs r1 with
              | ':' :: r2 =>
                  match parseJValueGo fuel r2 with
                  | none => none
                  | some (v, r3) =>
                      match skipJsonWs r3 with
                      | ',' :: r4 =>
                          (parseJMembersGo fuel r4).map (fun p => ((key, v) :: p.1, p.2))
                      | '\x7d' :: r4 => some ([(key, v)], r4)
                      | _ => none
              | _ => none
      | _ => none

end

/-- `JSON.parse`: parse one value and require only whitespace after it.
Object duplicate keys are resolved by assignment (last value wins, first
position kept), as in JavaScript. -/
def parseJson (l : List Char) : Option Json :=
  match parseJValueGo (2 * l.length + 2) l with
  | some (v, rest) => if skipJsonWs rest = [] then some v else none
  | none => none

/-! ### Score validation and the overall-score override. -/

/-- The six required per-criterion metrics (`requiredMetrics` of the client
in `test-report-generation.js`, and the keys of `weights` in
`src/gemini-client.js`). -/
def requiredMetrics : List String :=
  ["eeat_score", "technical_score", "relevance_score",
   "text_quality_score", "ai_optimization_score", "freshness_score"]

/-- The fixed criterion weights (`weights`, `src/gemini-client.js` lines
433-440). -/
def geminiWeights : List (String × ℚ) :=
  [("eeat_score", 0.20), ("technical_score", 0.10), ("relevance_score", 0.20),
   ("text_quality_score", 0.10), ("ai_optimization_score", 0.25),
   ("freshness_score", 0.15)]

/-- `evaluation[key]?.score || 0`: the score number when the metric object
and its `score` are present, `0` when the metric or the score is missing,
null, or zero (non-numeric truthy scores, which JavaScript would propagate
into NaN arithmetic, are outside the model). -/
def scoreOrZero (evaluation : Json) (key : String) : ℚ :=
  match objGet evaluation key with
  | some (.obj ms) =>
      match jsonGet ms "score" with
      | some (.num q) => q
      | _ => 0
  | _ => 0

/-- The `reduce` of lines 442-445: `Σ (evaluation[key]?.score || 0) ×
weight` over the six weights. -/
def calculatedScore (evaluation : Json) : ℚ :=
  geminiWeights.foldl (fun sum kw => sum + scoreOrZero evaluation kw.1 * kw.2) 0

/-- `Math.round` (half rounds toward positive infinity). -/
def jsRound (x : ℚ) : ℤ := ⌊x + 1 / 2⌋

/-- Line 448: `evaluation.overall_score = Math.round(calculatedScore)` —
the unconditional override of whatever the model supplied. -/
def overrideOverallScore (evaluation : Json) : Json :=
  objSet evaluation "overall_score" (.num (jsRound (calculatedScore evaluation)))

/-- The fixed priority tiers of lines 461-463. -/
def derivePriority (s : ℚ) : String :=
  if s < 60 then "high" else if s < 75 then "medium" else "low"

/-- Lines 460-464: when `evaluation.priority` is falsy, derive it from the
(already overridden) overall score; a non-numeric overall score compares
false in both `<` tests, landing on `low`. -/
def setPriorityIfMissing (evaluation : Json) : Json :=
  if jsonTruthy (objGet evaluation "priority") then evaluation
  else
    match objGet evaluation "overall_score" with
    | some (.num s) => objSet evaluation "priority" (.str (derivePriority s))
    | _ => objSet evaluation "priority" (.str "low")

/-- The post-parse tail of `parseEvaluationResponse` (lines 432-466):
override the overall score, then fill in a missing priority. -/
def parseScoreOverride (evaluation : Json) : Json :=
  setPriorityIfMissing (overrideOverallScore evaluation)

/-- `parseEvaluationResponse` of `src/gemini-client.js` end to end on the
response text: brace check, brace extraction (falling back to the trimmed
text when the regex fails), repair, parse, then the score override. -/
def parseEvaluationResponse (text : String) : Except String Json :=
  let cs := text.toList
  if !(cs.any (fun c => c = '\x7b')) then
    .error "Response does not contain JSON object"
  else
    let base := match jsonMatchExtract cs with | some m => m | none => jsTrim cs
    match parseJson (repairJsonText base) with
    | some evaluation => .ok (parseScoreOverride evaluation)
    | none => .error "JSON parsing failed"

/-- The validation block of the client in `test-report-generation.js`
(lines 896-912): reject when a required metric is missing (falsy), naming
the missing metrics, then reject when any present metric has a literal
null score, naming those fields. -/
def validateRequiredMetrics (evaluation : Json) : Except String Unit :=
  let missing := requiredMetrics.filter (fun m => !jsonTruthy (objGet evaluation m))
  if !missing.isEmpty then
    .error ("Invalid response structure - missing metrics: " ++
      String.intercalate ", " missing)
  else
    let nullScores := requiredMetrics.filter (fun m =>
      match objGet evaluation m with
      | some (.obj ms) =>
          match jsonGet ms "score" with
          | some .null => true
          | _ => false
      | _ => false)
    if !nullScores.isEmpty then
      .error ("Invalid scores - found null values in: " ++
        String.intercalate ", " nullScores)
    else .ok ()

/-! ### Optimization threshold and recommendation rule. -/

/-- `evaluationConfig.output_format.optimization_threshold || 75`
(`buildHostelworldPrompt`, `test-report-generation.js` line 608): `none`
models an absent or null configured threshold. -/
def resolveOptimizationThreshold (t : Option ℚ) : ℚ :=
  match t with
  | some v => if v = 0 then 75 else v
  | none => 75

/-- The binary recommendation rule the client embeds in its prompt
(`If Final Quality Score < threshold, recommend "Optimize"`, line 678 of
`test-report-generation.js`), with the `Optimize` / `Not Optimize` naming
of `evaluation-hostelworld.md`: strictly below the threshold optimizes. -/
def optimizationRecommendation (score threshold : ℚ) : String :=
  if score < threshold then "Optimize" else "Not Optimize"

/-! ### The CLI batch loop (`src/index.js`, `evaluate` action lines
99-126): contiguous slices of `batchSize`, `Promise.allSettled` within a
slice, fulfilled outcomes pushed to `results` and rejected ones to
`errors` with their identifier. -/

/-- The contiguous `slice(i, i + batchSize)` chunks, in order. The CLI
resolves `batchSize` with `parseInt(options.batchSize) || 3`, so it is
always at least 1 (`resolveBatchSize`). -/
def chunksOf {α : Type} (bs : Nat) : List α → List (List α)
  | [] => []
  | x :: xs => (x :: xs.take (bs - 1)) :: chunksOf bs (xs.drop (bs - 1))
termination_by l => l.length
decreasing_by
  have := xs.length_drop (bs - 1)
  simp only [List.length_cons]
  omega

/-- `parseInt(options.batchSize) || 3`: `none` models a NaN parse. -/
def resolveBatchSize (n : Option Int) : Int :=
  match n with
  | some k => if k = 0 then 3 else k
  | none => 3

/-- The batch loop: one chunk at a time, strictly sequentially; inside a
chunk every identifier is processed independently (`Promise.allSettled`
never rejects) and its single outcome is recorded as a success or as an
`(identifier, message)` failure. -/
def runBatch {α ε β : Type} (process : α → Except ε β) (bs : Nat) :
    List α → List β × List (α × ε)
  | [] => ([], [])
  | x :: xs =>
      let batch := x :: xs.take (bs - 1)
      let settled := batch.map (fun a => (a, process a))
      let res := settled.filterMap (fun p =>
        match p.2 with | .ok b => some b | .error _ => none)
      let errs := settled.filterMap (fun p =>
        match p.2 with | .error e => some (p.1, e) | .ok _ => none)
      let rec_ := runBatch process bs (xs.drop (bs - 1))
      (res ++ rec_.1, errs ++ rec_.2)
termination_by l => l.length
decreasing_by
  have := xs.length_drop (bs - 1)
  simp only [List.length_cons]
  omega

/-! ### Concrete inputs used by the witnesses and counterexamples below. -/

/-- A parsed model response with all six scores and a wrong self-reported
overall score (the true weighted sum is 62.5, which `Math.round` takes
to 63). -/
def exampleEval : Json := .obj
  [("eeat_score", .obj [("score", .num 80)]),
   ("technical_score", .obj [("score", .num 70)]),
   ("relevance_score", .obj [("score", .num 60)]),
   ("text_quality_score", .obj [("score", .num 90)]),
   ("ai_optimization_score", .obj [("score", .num 50)]),
   ("freshness_score", .obj [("score", .num 40)]),
   ("overall_score", .num 99)]

/-- A parsed model response omitting `freshness_score` entirely; the other
five metrics all score 80 (weighted sum with the missing score substituted
by zero: 80 × 0.85 = 68). -/
def exampleEvalMissingFreshness : Json := .obj
  [("eeat_score", .obj [("score", .num 80)]),
   ("technical_score", .obj [("score", .num 80)]),
   ("relevance_score", .obj [("score", .num 80)]),
   ("text_quality_score", .obj [("score", .num 80)]),
   ("ai_optimization_score", .obj [("score", .num 80)]),
   ("overall_score", .null)]

/-- A raw record that satisfies both the CMS predicate (it has a
`yoast_head_json` member, albeit null) and the Scrape predicate (its
content container has a truthy `.text`). -/
def exampleBothShapes : JsVal := .obj
  [("yoast_head_json", .null),
   ("content", .obj [("text", .str "body text")])]

/-- A raw record classified as CMS purely because a `meta` member exists;
it carries no `id`, `slug` or `link` at all. -/
def exampleMetaOnly : JsVal := .obj [("meta", .obj [])]

/-- An extraction config that is truthy but enables no field at all. -/
def exampleEmptyConfig : JsVal := .obj []

/-- The upstream oracle of the batch claim: identifier 3 does not exist. -/
def exampleProcess (n : Nat) : Except String Nat :=
  if n = 3 then .error "not found" else .ok n

/-- A model response whose JSON payload has a missing comma between two
array string literals (outside any string) and escaped quotes inside a
string value; surrounding prose exercises the brace extraction. -/
def exampleResponse : String :=
  "Here is my analysis: \x7b\"a\": \"x\\\" \\\"y\", \"strengths\": [\"a\" \"b\"]\x7d done"

/-- A body of `n` words (`n` copies of `w` each followed by a space). -/
def exampleBody (n : Nat) : String := ⟨(List.replicate n ['w', ' ']).flatten⟩

/-! ## Theorems -/

/-! ### Object access lemmas. -/

theorem jsonGet_jsonSet_self (ms : List (String × Json)) (k : String) (v : Json) :
    jsonGet (jsonSet ms k v) k = some v := by
  induction ms with
  | nil => simp [jsonSet, jsonGet]
  | cons hd tl ih =>
      by_cases h : hd.1 = k <;> simp [jsonSet, jsonGet, h, ih]

theorem jsonGet_jsonSet_ne (ms : List (String × Json)) (k k' : String) (v : Json)
    (h : k' ≠ k) : jsonGet (jsonSet ms k' v) k = jsonGet ms k := by
  induction ms with
  | nil => simp [jsonSet, jsonGet, h]
  | cons hd tl ih =>
      by_cases hh : hd.1 = k'
      · simp [jsonSet, jsonGet, hh, h]
      · simp only [jsonSet, hh, if_false, jsonGet]
        by_cases hk : hd.1 = k <;> simp [hk, ih]

theorem objGet_objSet_self (ms : List (String × Json)) (k : String) (v : Json) :
    objGet (objSet (.obj ms) k v) k = some v := by
  simp [objSet, objGet, jsonGet_jsonSet_self]

theorem objGet_objSet_ne (x : Json) (k k' : String) (v : Json) (h : k' ≠ k) :
    objGet (objSet x k' v) k = objGet x k := by
  cases x <;> simp [objSet, objGet]
  exact jsonGet_jsonSet_ne _ _ _ _ h

theorem objGet_setPriority (x : Json) :
    objGet (setPriorityIfMissing x) "overall_score" = objGet x "overall_score" := by
  unfold setPriorityIfMissing
  by_cases h : jsonTruthy (objGet x "priority") = true
  · simp [h]
  · simp only [h, Bool.false_eq_true, if_false]
    split
    · exact objGet_objSet_ne _ _ _ _ (by decide)
    · exact objGet_objSet_ne _ _ _ _ (by decide)

theorem objGet_parseScoreOverride_overall (e : Json) (ms : List (String × Json))
    (he : e = .obj ms) :
    objGet (parseScoreOverride e) "overall_score" =
      some (.num (jsRound (calculatedScore e))) := by
  subst he
  rw [parseScoreOverride, objGet_setPriority, overrideOverallScore, objGet_objSet_self]

/-- Claim C1: for every parsed evaluation carrying the six per-criterion
scores, the returned `overall_score` equals `Math.round(0.20·eeat +
0.10·technical + 0.20·relevance + 0.10·text_quality + 0.25·ai_optimization
+ 0.15·freshness)`, and this recomputed value overwrites whatever
`overall_score` the model supplied (the evaluation `e`, and with it the
model-supplied overall score, is arbitrary). -/
theorem overall_score_recomputed (e : Json)
    (m1 m2 m3 m4 m5 m6 : List (String × Json)) (s1 s2 s3 s4 s5 s6 : ℚ)
    (h1 : objGet e "eeat_score" = some (.obj m1))
    (h1s : jsonGet m1 "score" = some (.num s1))
    (h2 : objGet e "technical_score" = some (.obj m2))
    (h2s : jsonGet m2 "score" = some (.num s2))
    (h3 : objGet e "relevance_score" = some (.obj m3))
    (h3s : jsonGet m3 "score" = some (.num s3))
    (h4 : objGet e "text_quality_score" = some (.obj m4))
    (h4s : jsonGet m4 "score" = some (.num s4))
    (h5 : objGet e "ai_optimization_score" = some (.obj m5))
    (h5s : jsonGet m5 "score" = some (.num s5))
    (h6 : objGet e "freshness_score" = some (.obj m6))
    (h6s : jsonGet m6 "score" = some (.num s6)) :
    objGet (parseScoreOverride e) "overall_score" =
      some (.num (jsRound (0.20 * s1 + 0.10 * s2 + 0.20 * s3 + 0.10 * s4 +
        0.25 * s5 + 0.15 * s6))) := by
  obtain ⟨ms, rfl⟩ : ∃ ms, e = .obj ms := by
    cases e <;> simp [objGet] at h1 ⊢
  have hs : calculatedScore (.obj ms) =
      0.20 * s1 + 0.10 * s2 + 0.20 * s3 + 0.10 * s4 + 0.25 * s5 + 0.15 * s6 := by
    simp only [calculatedScore, geminiWeights, List.foldl, scoreOrZero,
      h1, h1s, h2, h2s, h3, h3s, h4, h4s, h5, h5s, h6, h6s]
    ring
  rw [objGet_parseScoreOverride_overall _ ms rfl, hs]

/-- Witness for C1: on `exampleEval` (true weighted sum 62.5, model-supplied
overall 99) the override yields 63. -/
theorem overall_score_recomputed_witness :
    objGet (parseScoreOverride exampleEval) "overall_score" = some (.num 63) := by
  have h := overall_score_recomputed exampleEval _ _ _ _ _ _ 80 70 60 90 50 40
    rfl rfl rfl rfl rfl rfl rfl rfl rfl rfl rfl rfl
  rw [h]
  norm_num [jsRound]

/-- Claim C2 (the claim is the intended design, the production code
violates it): on a model response whose `freshness_score` metric is
entirely missing, the production `parseEvaluationResponse`
(`src/gemini-client.js`) raises no validation error — it silently
substitutes 0 for the missing score, yielding overall 68 from five 80s —
whereas the validation block of the client in `test-report-generation.js`
rejects the same evaluation naming `freshness_score`, as the claim
requires. -/
theorem missing_score_silently_zeroed :
    objGet (parseScoreOverride exampleEvalMissingFreshness) "overall_score" =
        some (.num 68) ∧
    scoreOrZero exampleEvalMissingFreshness "freshness_score" = 0 ∧
    validateRequiredMetrics exampleEvalMissingFreshness =
      .error "Invalid response structure - missing metrics: freshness_score" := by
  refine ⟨?_, rfl, rfl⟩
  have e1 : scoreOrZero exampleEvalMissingFreshness "eeat_score" = 80 := rfl
  have e2 : scoreOrZero exampleEvalMissingFreshness "technical_score" = 80 := rfl
  have e3 : scoreOrZero exampleEvalMissingFreshness "relevance_score" = 80 := rfl
  have e4 : scoreOrZero exampleEvalMissingFreshness "text_quality_score" = 80 := rfl
  have e5 : scoreOrZero exampleEvalMissingFreshness "ai_optimization_score" = 80 := rfl
  have e6 : scoreOrZero exampleEvalMissingFreshness "freshness_score" = 0 := rfl
  have hcs : calculatedScore exampleEvalMissingFreshness = 68 := by
    simp only [calculatedScore, geminiWeights, List.foldl, e1, e2, e3, e4, e5, e6]
    norm_num
  rw [objGet_parseScoreOverride_overall exampleEvalMissingFreshness _ rfl, hcs]
  norm_num [jsRound]

/-- Claim C7: the optimization recommendation rule is strict: a score equal
to the configured threshold (default 75) is "Not Optimize", and "Optimize"
holds exactly when the score is strictly below the threshold. -/
theorem optimization_threshold_strict (t : Option ℚ) (score : ℚ) :
    (optimizationRecommendation score (resolveOptimizationThreshold t) = "Optimize"
      ↔ score < resolveOptimizationThreshold t) ∧
    (score = resolveOptimizationThreshold t →
      optimizationRecommendation score (resolveOptimizationThreshold t) =
        "Not Optimize") ∧
    resolveOptimizationThreshold none = 75 ∧
    optimizationRecommendation 75 75 = "Not Optimize" ∧
    derivePriority 75 = "low" := by
  refine ⟨?_, ?_, rfl, by norm_num [optimizationRecommendation], by norm_num [derivePriority]⟩
  · unfold optimizationRecommendation
    split
    · simp_all
    · simp_all
  · intro h
    subst h
    simp [optimizationRecommendation]

/-- Witness for C7: at the default threshold and a score of exactly 75 the
recommendation is "Not Optimize". -/
theorem optimization_threshold_strict_witness :
    (75 : ℚ) = resolveOptimizationThreshold none ∧
    optimizationRecommendation 75 (resolveOptimizationThreshold none) =
      "Not Optimize" :=
  ⟨rfl, (optimization_threshold_strict none 75).2.1 rfl⟩

/-! ### Extractor lemmas. -/

theorem truthy_isUndef_false (v : JsVal) (h : truthy v = true) : v.isUndefined = false := by
  cases v <;> simp_all [truthy, JsVal.isUndefined]

theorem jsOr_isUndef_false (a b : JsVal) (hb : b.isUndefined = false) :
    (jsOr a b).isUndefined = false := by
  unfold jsOr
  by_cases h : truthy a = true
  · rw [if_pos h]; exact truthy_isUndef_false a h
  · rw [if_neg h]; exact hb

theorem extract_eq (config data : JsVal) :
    extract config data = applyConfigFilter config (rawProjection data) := by
  by_cases h1 : isWordPressData data = true <;> by_cases h2 : isUniversalData data = true <;>
    simp [extract, rawProjection, detectShape, extractWordPressContent,
      extractUniversalContent, extractGenericContent, h1, h2]

theorem forceEssential_foldl_get (src : JsRecord) (fields : List String) :
    ∀ (acc : JsRecord) (f : String), (recordGet src f).isUndefined = false →
      (f ∈ fields ∨ recordGet acc f = recordGet src f) →
      recordGet (fields.foldl (forceEssential src) acc) f = recordGet src f := by
  induction fields with
  | nil =>
      intro acc f hdef hmem
      rcases hmem with h | h
      · exact absurd h (List.not_mem_nil f)
      · simpa [List.foldl] using h
  | cons g gs ih =>
      intro acc f hdef hmem
      simp only [List.foldl]
      apply ih _ f hdef
      by_cases hfg : f = g
      · right
        subst hfg
        simp [forceEssential, hdef, recordGet_set_self]
      · have hpres : recordGet (forceEssential src acc g) f = recordGet acc f := by
          unfold forceEssential
          split
          · exact recordGet_set_ne acc f g _ (fun hh => hfg hh.symm)
          · rfl
        rcases hmem with h | h
        · rcases List.mem_cons.mp h with h' | h'
          · exact absurd h' hfg
          · exact Or.inl h'
        · exact Or.inr (hpres.trans h)

theorem applyConfigFilter_essential (config : JsVal) (r : JsRecord) (f : String)
    (hf : f ∈ essentialFields) (hdef : (recordGet r f).isUndefined = false) :
    recordGet (applyConfigFilter config r) f = recordGet r f := by
  unfold applyConfigFilter
  by_cases hc : truthy config = true
  · simp only [hc, Bool.not_true, Bool.false_eq_true, if_false]
    exact forceEssential_foldl_get r essentialFields _ f hdef (Or.inl hf)
  · simp only [Bool.not_eq_true] at hc
    simp [hc]

theorem rawProjection_title_content_defined (data : JsVal) :
    (recordGet (rawProjection data) "title").isUndefined = false ∧
    (recordGet (rawProjection data) "content").isUndefined = false := by
  unfold rawProjection
  cases detectShape data with
  | cms =>
      constructor
      · have h : recordGet (wordPressProjection data) "title" =
            jsOr (jsOr (jget (jget data "title") "rendered") (jget data "title"))
              (.str "") := rfl
        rw [h]
        exact jsOr_isUndef_false _ _ rfl
      · exact rfl
  | scrape =>
      constructor
      · have h : recordGet (universalProjection data) "title" =
            jsOr (jget data "title") (.str "") := rfl
        rw [h]
        exact jsOr_isUndef_false _ _ rfl
      · have h : recordGet (universalProjection data) "content" =
            jsOr (jget (jget data "content") "text") (.str "") := rfl
        rw [h]
        exact jsOr_isUndef_false _ _ rfl
  | generic =>
      constructor
      · have h : recordGet (genericProjection data) "title" =
            jsOr (jget data "title") (.str "") := rfl
        rw [h]
        exact jsOr_isUndef_false _ _ rfl
      · have h : recordGet (genericProjection data) "content" =
            (match jget data "content" with
             | .str s => .str s
             | c => jsOr (jget c "text") (.str "")) := rfl
        rw [h]
        cases jget data "content" <;>
          first
          | exact rfl
          | exact jsOr_isUndef_false _ _ rfl

/-- Claim C3: `extract` classifies every raw record by the ordered
first-match rule — the CMS predicate (SEO-plugin block, flat meta map, or
the id+slug+link triad) wins over the Scrape predicate (content container
with a `.text` member), which wins over the Generic fallback — and the
projection applied is the one of the detected shape. In particular a
record satisfying both predicates is treated as CMS (first conjunct: the
CMS outcome does not depend on `isUniversalData`). -/
theorem shape_precedence (config data : JsVal) :
    (isWordPressData data = true →
      detectShape data = Shape.cms ∧
      extract config data = applyConfigFilter config (wordPressProjection data)) ∧
    (isWordPressData data = false → isUniversalData data = true →
      detectShape data = Shape.scrape ∧
      extract config data = applyConfigFilter config (universalProjection data)) ∧
    (isWordPressData data = false → isUniversalData data = false →
      detectShape data = Shape.generic ∧
      extract config data = applyConfigFilter config (genericProjection data)) := by
  refine ⟨fun h1 => ⟨?_, ?_⟩, fun h1 h2 => ⟨?_, ?_⟩, fun h1 h2 => ⟨?_, ?_⟩⟩
  · simp [detectShape, h1]
  · simp [extract, extractWordPressContent, h1]
  · simp [detectShape, h1, h2]
  · simp [extract, extractUniversalContent, h1, h2]
  · simp [detectShape, h1, h2]
  · simp [extract, extractGenericContent, h1, h2]

/-- Witness for C3: a record satisfying both the CMS and the Scrape
predicate is classified as CMS. -/
theorem shape_precedence_witness :
    isWordPressData exampleBothShapes = true ∧
    isUniversalData exampleBothShapes = true ∧
    detectShape exampleBothShapes = Shape.cms :=
  ⟨rfl, rfl, ((shape_precedence .null exampleBothShapes).1 rfl).1⟩

/-- Counterexample to claim C4 as stated: the CMS-shaped record
`\x7b meta: \x7b\x7d \x7d` (detected as CMS because `meta` exists) with a
truthy extraction config that enables no field yields a canonical record
in which `post_id`, `slug` and `url` are all absent — the config filter
only force-includes essential fields that are defined in the projection,
and this record has no `id`, `slug` or `link` to project. -/
theorem essential_fields_counterexample :
    isWordPressData exampleMetaOnly = true ∧
    truthy exampleEmptyConfig = true ∧
    recordHas (extract exampleEmptyConfig exampleMetaOnly) "post_id" = false ∧
    recordHas (extract exampleEmptyConfig exampleMetaOnly) "slug" = false ∧
    recordHas (extract exampleEmptyConfig exampleMetaOnly) "url" = false := by
  have hfc : flattenConfig exampleEmptyConfig = [] := by
    simp [flattenConfig, flattenConfigEntries, exampleEmptyConfig, objEntries]
  have hpost : recordGet (wordPressProjection exampleMetaOnly) "post_id" = .undefined := rfl
  have hslug : recordGet (wordPressProjection exampleMetaOnly) "slug" = .undefined := rfl
  have hurl : recordGet (wordPressProjection exampleMetaOnly) "url" = .undefined := rfl
  have htitle : recordGet (wordPressProjection exampleMetaOnly) "title" = .str "" := rfl
  have hcont : recordGet (wordPressProjection exampleMetaOnly) "content" = .str "" := rfl
  have hex : extract exampleEmptyConfig exampleMetaOnly =
      [("title", .str ""), ("content", .str "")] := by
    rw [show extract exampleEmptyConfig exampleMetaOnly =
      applyConfigFilter exampleEmptyConfig (wordPressProjection exampleMetaOnly) from rfl]
    simp only [applyConfigFilter, hfc]
    simp [exampleEmptyConfig, objEntries, essentialFields, forceEssential, truthy,
      hpost, hslug, hurl, htitle, hcont, recordSet, JsVal.isUndefined]
  refine ⟨rfl, rfl, ?_, ?_, ?_⟩ <;> rw [hex] <;> rfl

/-- Claim C4 (amended): for every raw record and every extraction
configuration, the canonical record always contains `title` and `content`;
each of the five essential fields is force-included (with its projected
value) whenever the detected shape's projection defines it — which the
Generic shape always does, while the CMS and Scrape projections leave
`post_id`/`slug`/`url` undefined when the raw record lacks
`id`/`slug`/`link`. -/
theorem extract_essentials_present (config data : JsVal) :
    (recordGet (extract config data) "title").isUndefined = false ∧
    (recordGet (extract config data) "content").isUndefined = false ∧
    (∀ f ∈ essentialFields, (recordGet (rawProjection data) f).isUndefined = false →
      recordGet (extract config data) f = recordGet (rawProjection data) f) := by
  obtain ⟨ht, hc⟩ := rawProjection_title_content_defined data
  have he := extract_eq config data
  refine ⟨?_, ?_, fun f hf hdef => ?_⟩
  · rw [he, applyConfigFilter_essential config _ "title" (by simp [essentialFields]) ht]
    exact ht
  · rw [he, applyConfigFilter_essential config _ "content" (by simp [essentialFields]) hc]
    exact hc
  · rw [he]
    exact applyConfigFilter_essential config _ f hf hdef

/-- Witness for the amended C4: on the CMS record with only a `meta`
member and the all-disabled config, `title` (defined as `""` by the
projection) is force-included with its projected value. -/
theorem extract_essentials_present_witness :
    "title" ∈ essentialFields ∧
    (recordGet (rawProjection exampleMetaOnly) "title").isUndefined = false ∧
    recordGet (extract exampleEmptyConfig exampleMetaOnly) "title" =
      recordGet (rawProjection exampleMetaOnly) "title" :=
  ⟨by simp [essentialFields],
   rfl,
   (extract_essentials_present exampleEmptyConfig exampleMetaOnly).2.2 "title"
     (by simp [essentialFields]) rfl⟩

/-- Claim C9: an extractor constructed with no extraction configuration
(null or undefined) filters nothing: `applyConfigFilter` returns the
projected record unchanged, so `extract` returns the full projection of
the detected shape with every field present. -/
theorem no_config_filter_identity (r : JsRecord) (data : JsVal) :
    applyConfigFilter .null r = r ∧
    applyConfigFilter .undefined r = r ∧
    extract .null data = rawProjection data ∧
    extract .undefined data = rawProjection data :=
  ⟨rfl, rfl, (extract_eq .null data).trans rfl, (extract_eq .undefined data).trans rfl⟩

/-- Claim C10: the Generic projection always defines the identifier
fields: `post_id`, `slug` and `url` are never `undefined`, a missing `id`
or `slug` becomes the placeholder `"unknown"`, and a record with neither
`link` nor `url` gets the empty string as its `url` — extraction is total
and never fails for lack of identifiers. -/
theorem generic_placeholders (data : JsVal) :
    (recordGet (genericProjection data) "post_id").isUndefined = false ∧
    (recordGet (genericProjection data) "slug").isUndefined = false ∧
    (recordGet (genericProjection data) "url").isUndefined = false ∧
    (jget data "id" = .undefined →
      recordGet (genericProjection data) "post_id" = .str "unknown") ∧
    (jget data "slug" = .undefined →
      recordGet (genericProjection data) "slug" = .str "unknown") ∧
    (jget data "link" = .undefined → jget data "url" = .undefined →
      recordGet (genericProjection data) "url" = .str "") := by
  have hid : recordGet (genericProjection data) "post_id" =
      jsOr (jget data "id") (.str "unknown") := rfl
  have hslug : recordGet (genericProjection data) "slug" =
      jsOr (jget data "slug") (.str "unknown") := rfl
  have hurl : recordGet (genericProjection data) "url" =
      jsOr (jsOr (jget data "link") (jget data "url")) (.str "") := rfl
  refine ⟨?_, ?_, ?_, fun h => ?_, fun h => ?_, fun h h' => ?_⟩
  · rw [hid]; exact jsOr_isUndef_false _ _ rfl
  · rw [hslug]; exact jsOr_isUndef_false _ _ rfl
  · rw [hurl]; exact jsOr_isUndef_false _ _ rfl
  · rw [hid, h]; rfl
  · rw [hslug, h]; rfl
  · rw [hurl, h, h']; rfl

/-- Witness for C10: the empty object carries no identifiers at all, and
its Generic projection uses all three placeholders. -/
theorem generic_placeholders_witness :
    recordGet (genericProjection (.obj [])) "post_id" = .str "unknown" ∧
    recordGet (genericProjection (.obj [])) "slug" = .str "unknown" ∧
    recordGet (genericProjection (.obj [])) "url" = .str "" :=
  ⟨(generic_placeholders (.obj [])).2.2.2.1 rfl,
   (generic_placeholders (.obj [])).2.2.2.2.1 rfl,
   (generic_placeholders (.obj [])).2.2.2.2.2 rfl rfl⟩

/-! ### Batch loop lemmas. -/

theorem chunksOf_flatten_aux {α : Type} (bs n : Nat) :
    ∀ ids : List α, ids.length ≤ n → (chunksOf bs ids).flatten = ids := by
  induction n with
  | zero =>
      intro ids h
      have : ids = [] := List.eq_nil_of_length_eq_zero (Nat.le_zero.mp h)
      subst this
      simp [chunksOf]
  | succ n ih =>
      intro ids h
      match ids with
      | [] => simp [chunksOf]
      | x :: xs =>
          have hlen : (xs.drop (bs - 1)).length ≤ n := by
            have := xs.length_drop (bs - 1)
            simp only [List.length_cons] at h
            omega
          simp only [chunksOf, List.flatten_cons]
          rw [ih _ hlen]
          simp [List.take_append_drop]

theorem chunksOf_flatten {α : Type} (bs : Nat) (ids : List α) :
    (chunksOf bs ids).flatten = ids :=
  chunksOf_flatten_aux bs ids.length ids le_rfl

theorem chunksOf_length_le_aux {α : Type} (bs n : Nat) (hbs : 1 ≤ bs) :
    ∀ ids : List α, ids.length ≤ n → ∀ c ∈ chunksOf bs ids, c.length ≤ bs := by
  induction n with
  | zero =>
      intro ids h
      have : ids = [] := List.eq_nil_of_length_eq_zero (Nat.le_zero.mp h)
      subst this
      simp [chunksOf]
  | succ n ih =>
      intro ids h c hc
      match ids, hc with
      | [], hc => simp [chunksOf] at hc
      | x :: xs, hc =>
          have hlen : (xs.drop (bs - 1)).length ≤ n := by
            have := xs.length_drop (bs - 1)
            simp only [List.length_cons] at h
            omega
          simp only [chunksOf] at hc
          rcases List.mem_cons.mp hc with h1 | h1
          · subst h1
            have := List.length_take_le (bs - 1) xs
            simp only [List.length_cons]
            omega
          · exact ih _ hlen c h1

theorem runBatch_outcomes_aux {α ε β : Type} (process : α → Except ε β) (bs n : Nat) :
    ∀ ids : List α, ids.length ≤ n →
      (runBatch process bs ids).1 = ids.filterMap (fun a => (process a).toOption) ∧
      (runBatch process bs ids).2 = ids.filterMap (fun a =>
        match process a with | .error e => some (a, e) | .ok _ => none) := by
  induction n with
  | zero =>
      intro ids h
      have : ids = [] := List.eq_nil_of_length_eq_zero (Nat.le_zero.mp h)
      subst this
      simp [runBatch]
  | succ n ih =>
      intro ids h
      match ids with
      | [] => simp [runBatch]
      | x :: xs =>
          have hlen : (xs.drop (bs - 1)).length ≤ n := by
            have := xs.length_drop (bs - 1)
            simp only [List.length_cons] at h
            omega
          obtain ⟨ih1, ih2⟩ := ih (xs.drop (bs - 1)) hlen
          have hsplit : (x :: xs.take (bs - 1)) ++ xs.drop (bs - 1) = x :: xs := by
            simp [List.take_append_drop]
          have hmap1 : ((x :: xs.take (bs - 1)).map (fun a => (a, process a))).filterMap
              (fun p => match p.2 with | .ok b => some b | .error _ => none) =
              (x :: xs.take (bs - 1)).filterMap (fun a => (process a).toOption) := by
            rw [List.filterMap_map]
            congr 1
          have hmap2 : ((x :: xs.take (bs - 1)).map (fun a => (a, process a))).filterMap
              (fun p => match p.2 with | .error e => some (p.1, e) | .ok _ => none) =
              (x :: xs.take (bs - 1)).filterMap (fun a =>
                match process a with | .error e => some (a, e) | .ok _ => none) := by
            rw [List.filterMap_map]
            congr 1
          constructor
          · simp only [runBatch]
            rw [hmap1, ih1, ← List.filterMap_append, hsplit]
          · simp only [runBatch]
            rw [hmap2, ih2, ← List.filterMap_append, hsplit]

theorem runBatch_outcomes {α ε β : Type} (process : α → Except ε β) (bs : Nat)
    (ids : List α) :
    (runBatch process bs ids).1 = ids.filterMap (fun a => (process a).toOption) ∧
    (runBatch process bs ids).2 = ids.filterMap (fun a =>
      match process a with | .error e => some (a, e) | .ok _ => none) :=
  runBatch_outcomes_aux process bs ids.length ids le_rfl

/-- Claim C5: the batch runner partitions the identifier list into
contiguous chunks of at most `batchSize`, processed strictly sequentially
(the recursion consumes one chunk at a time, in list order), and one
article's failure never cancels a sibling: every identifier contributes
exactly one recorded outcome, the successes and the `(identifier, message)`
failures each in list order — hence 5 identifiers of which exactly
number 3 fails upstream give 4 successes plus that one recorded failure,
and batch size 2 makes the chunks [2, 2, 1]. -/
theorem batch_failure_isolation {α ε β : Type} (process : α → Except ε β)
    (ids : List α) (bs : Nat) (hbs : 1 ≤ bs) :
    ((runBatch process bs ids).1 = ids.filterMap (fun a => (process a).toOption) ∧
     (runBatch process bs ids).2 = ids.filterMap (fun a =>
        match process a with | .error e => some (a, e) | .ok _ => none)) ∧
    ((chunksOf bs ids).flatten = ids ∧ ∀ c ∈ chunksOf bs ids, c.length ≤ bs) ∧
    ((chunksOf 2 ([1, 2, 3, 4, 5] : List Nat)).map List.length = [2, 2, 1] ∧
     runBatch exampleProcess 2 [1, 2, 3, 4, 5] = ([1, 2, 4, 5], [(3, "not found")])) := by
  refine ⟨runBatch_outcomes process bs ids,
    ⟨chunksOf_flatten bs ids, chunksOf_length_le_aux bs ids.length hbs ids le_rfl⟩, ?_, ?_⟩
  · simp [chunksOf]
  · simp [runBatch, exampleProcess]

/-- Witness for C5: the concrete five-identifier run with batch size 2. -/
theorem batch_failure_isolation_witness :
    runBatch exampleProcess 2 [1, 2, 3, 4, 5] = ([1, 2, 4, 5], [(3, "not found")]) :=
  (batch_failure_isolation exampleProcess [1, 2, 3, 4, 5] 2 (by norm_num)).2.2.2

/-- Claim C6: on a model response containing `"strengths": ["a" "b"]` (a
missing comma between adjacent array string literals, outside any string —
here the same response also carries escaped quotes inside another string
value, which stay untouched), the repair step inserts exactly the missing
comma, the repaired text parses as JSON with `strengths = ["a", "b"]`, and
the full production `parseEvaluationResponse` hands that array through. -/
theorem json_repair_missing_comma :
    repairJsonText ((jsonMatchExtract exampleResponse.toList).getD []) =
      ("\x7b\"a\": \"x\\\" \\\"y\", \"strengths\": [\"a\", \"b\"]\x7d").toList ∧
    parseJson (repairJsonText ((jsonMatchExtract exampleResponse.toList).getD [])) =
      some (.obj [("a", .str "x\" \"y"), ("strengths", .arr [.str "a", .str "b"])]) ∧
    (parseEvaluationResponse exampleResponse).toOption.bind
      (fun e => objGet e "strengths") = some (.arr [.str "a", .str "b"]) :=
  ⟨rfl, rfl, rfl⟩

/-! ### Word count and reading time lemmas. -/

theorem splitWs_countRuns (n : Nat) : ∀ l : List Char, l.length ≤ n →
    ((splitWsGo [] l).filter (fun w => w.length != 0)).length = countRuns l ∧
    ((splitWsSkip l).filter (fun w => w.length != 0)).length = countRuns l ∧
    (∀ cur : List Char, cur ≠ [] →
      ((splitWsGo cur l).filter (fun w => w.length != 0)).length = 1 + countRunsIn l) := by
  induction n with
  | zero =>
      intro l hl
      have : l = [] := List.eq_nil_of_length_eq_zero (Nat.le_zero.mp hl)
      subst this
      refine ⟨by simp [splitWsGo, countRuns], by simp [splitWsSkip, countRuns], ?_⟩
      intro cur hcur
      have hb : (cur.reverse.length != 0) = true := by
        simpa [List.length_eq_zero] using hcur
      simp [splitWsGo, countRunsIn, List.filter_cons, hb, hcur]
  | succ n ih =>
      intro l hl
      match l with
      | [] =>
          refine ⟨by simp [splitWsGo, countRuns], by simp [splitWsSkip, countRuns], ?_⟩
          intro cur hcur
          have hb : (cur.reverse.length != 0) = true := by
            simpa [List.length_eq_zero] using hcur
          simp [splitWsGo, countRunsIn, List.filter_cons, hb, hcur]
      | c :: cs =>
          have hcs : cs.length ≤ n := by
            simp only [List.length_cons] at hl
            omega
          obtain ⟨ihA, ihB, ihC⟩ := ih cs hcs
          by_cases hw : jsWs c = true
          · refine ⟨?_, ?_, ?_⟩
            · simp [splitWsGo, hw, ihB, countRuns]
            · simp [splitWsSkip, hw, ihB, countRuns]
            · intro cur hcur
              have hb : (cur.reverse.length != 0) = true := by
                simpa [List.length_eq_zero] using hcur
              simp [splitWsGo, hw, List.filter_cons, hb, hcur, ihB, countRunsIn]
              omega
          · refine ⟨?_, ?_, ?_⟩
            · rw [show splitWsGo [] (c :: cs) = splitWsGo [c] cs by
                simp [splitWsGo, hw]]
              rw [ihC [c] (by simp)]
              simp [countRuns, hw]
            · rw [show splitWsSkip (c :: cs) = splitWsGo [c] cs by
                simp [splitWsSkip, hw]]
              rw [ihC [c] (by simp)]
              simp [countRuns, hw]
            · intro cur hcur
              rw [show splitWsGo cur (c :: cs) = splitWsGo (c :: cur) cs by
                simp [splitWsGo, hw]]
              rw [ihC (c :: cur) (by simp)]
              simp [countRunsIn, hw]

theorem ceil_div_200 (n : Nat) : ⌈(n : ℚ) / 200⌉ = (((n + 199) / 200 : ℕ) : ℤ) := by
  have hm := Nat.div_add_mod (n + 199) 200
  have hlt : (n + 199) % 200 < 200 := Nat.mod_lt _ (by norm_num)
  have h1 : 200 * ((n + 199) / 200) ≤ n + 199 := by omega
  have h2 : n + 199 < 200 * ((n + 199) / 200 + 1) := by omega
  obtain ⟨k, hk⟩ : ∃ k, (n + 199) / 200 = k := ⟨_, rfl⟩
  rw [hk] at h1 h2 ⊢
  have h1q : (200 : ℚ) * (k : ℚ) ≤ (n : ℚ) + 199 := by exact_mod_cast h1
  have h2q : (n : ℚ) + 199 < 200 * ((k : ℚ) + 1) := by exact_mod_cast h2
  rw [Int.ceil_eq_iff]
  constructor
  · rw [lt_div_iff (by norm_num : (0 : ℚ) < 200)]
    push_cast
    linarith
  · rw [div_le_iff (by norm_num : (0 : ℚ) < 200)]
    have h3 : n ≤ 200 * k := by omega
    have h3q : (n : ℚ) ≤ 200 * (k : ℚ) := by exact_mod_cast h3
    push_cast
    linarith

theorem calculateReadingTime_formula (content : String) :
    calculateReadingTime content = (((getWordCount content + 199) / 200 : ℕ) : ℤ) := by
  unfold calculateReadingTime
  by_cases hc : content = ""
  · simp [hc, getWordCount]
  · simp only [hc, if_false]
    exact ceil_div_200 (getWordCount content)

/-- Claim C8: the word count of a body is the number of non-empty
whitespace-separated tokens (equivalently, of maximal non-whitespace
runs), the estimated reading time is `ceil(word_count / 200)` — so exactly
200 words read in 1 minute and 201 words in 2 — and the CMS projection
computes `word_count` from the rendered body. -/
theorem word_count_reading_time (content : String) (d : JsVal) :
    getWordCount content = countRuns content.toList ∧
    calculateReadingTime content = (((getWordCount content + 199) / 200 : ℕ) : ℤ) ∧
    (getWordCount content = 200 → calculateReadingTime content = 1) ∧
    (getWordCount content = 201 → calculateReadingTime content = 2) ∧
    recordGet (wordPressProjection d) "word_count" =
      .num (getWordCount (jsStr (jsOr (jget (jget d "content") "rendered") (.str "")))) := by
  have hform := calculateReadingTime_formula content
  refine ⟨?_, hform, ?_, ?_, rfl⟩
  · by_cases hc : content = ""
    · subst hc
      simp [getWordCount, countRuns]
    · rw [getWordCount, if_neg hc]
      exact (splitWs_countRuns content.toList.length content.toList le_rfl).1
  · intro h
    rw [hform, h]
    norm_num
  · intro h
    rw [hform, h]
    norm_num

set_option maxRecDepth 8000 in
/-- Witness for C8: a 200-word body reads in 1 minute, a 201-word body
in 2. -/
theorem word_count_reading_time_witness :
    getWordCount (exampleBody 200) = 200 ∧
    calculateReadingTime (exampleBody 200) = 1 ∧
    getWordCount (exampleBody 201) = 201 ∧
    calculateReadingTime (exampleBody 201) = 2 := by
  have h200 : getWordCount (exampleBody 200) = 200 := by decide
  have h201 : getWordCount (exampleBody 201) = 201 := by decide
  exact ⟨h200, (word_count_reading_time (exampleBody 200) .null).2.2.1 h200,
    h201, (word_count_reading_time (exampleBody 201) .null).2.2.2.1 h201⟩

end SeoBlog
